import Mathlib

/-!
Verification of the actix-xml extractor (src/lib.rs, src/config.rs,
src/error.rs) as a shallow embedding.

The asynchronous body stream is embedded as a finite list of items, each
item either a byte chunk or a transport error (end of list is the
end-of-stream signal).  The `async move` loop in `XmlBody::poll` becomes
the structurally recursive `collect`; instrumentation fields (`pulled`,
`decodeCalls`, `decodeInput`) record how many stream items were consumed
and how the decoder was invoked, so that "the stream is never read" and
"the decoder runs exactly once on the full buffer" are statable.
-/

namespace ActixXml

/-- One payload byte (`u8`). -/
abbrev Byte := Nat

/-- One chunk of the streamed body (`Bytes`). -/
abbrev Chunk := List Byte

/-- Abstract transport error reported by the byte source
(`actix_web::error::PayloadError`); its structure is irrelevant here. -/
structure PayloadError where
  code : Nat
deriving DecidableEq

/-- Abstract deserialization error (`quick_xml::DeError`). -/
structure DeError where
  code : Nat
deriving DecidableEq

/-- Mirrors `XMLPayloadError` from src/error.rs. -/
inductive XMLPayloadError where
  | Overflow
  | ContentType
  | Deserialize (e : DeError)
  | Payload (e : PayloadError)
deriving DecidableEq

/-- A parsed media type as produced by the mime parser: type and subtype
are stored normalized (lowercase), parameters kept separately.  The crate
compares `mime == "text/xml"` on the essence (type and subtype only), so
parameters never enter the comparison. -/
structure Mime where
  type_ : String
  subtype : String
  params : List (String × String)
deriving DecidableEq

/-- Result of `req.mime_type()`: a parsed media type, no Content-Type
header at all, or a header that the mime parser rejects. -/
inductive MimeResult where
  | parsed (m : Mime)
  | absent
  | malformed
deriving DecidableEq

/-- Models the crate's `mime == "<t>/<s>"`: essence comparison, i.e. type
and subtype only, parameters ignored (the parser already lowercased the
components). -/
def mimeEq (m : Mime) (t s : String) : Bool :=
  m.type_ == t && m.subtype == s

/-- Mirrors `XmlConfig` from src/config.rs: a byte limit and an optional
content-type predicate. -/
structure XmlConfig where
  limit : Nat
  content_type : Option (Mime → Bool)

/-- Mirrors `DEFAULT_CONFIG` from src/config.rs. -/
def DEFAULT_CONFIG : XmlConfig :=
  { limit := 262144, content_type := none }

/-- Models `self.content_type.as_ref().map_or(false, |predicate| predicate(mime))`. -/
def XmlConfig.acceptedByPredicate (config : XmlConfig) (mime : Mime) : Bool :=
  match config.content_type with
  | some predicate => predicate mime
  | none => false

/-- Mirrors `XmlConfig::check_content_type` from src/config.rs: accept a
parsed `text/xml` or `application/xml`, or anything the configured
predicate accepts; everything else (including a missing or unparsable
Content-Type) is a `ContentType` error. -/
def XmlConfig.check_content_type (config : XmlConfig) (mt : MimeResult) :
    Except XMLPayloadError Unit :=
  match mt with
  | .parsed mime =>
    if mimeEq mime "text" "xml" || mimeEq mime "application" "xml"
        || config.acceptedByPredicate mime then
      .ok ()
    else
      .error .ContentType
  | .absent => .error .ContentType
  | .malformed => .error .ContentType

/-- The request-scoped app data the config lookup inspects: an
`XmlConfig` attached directly (`app_data::<Self>()`) and a
`web::Data<XmlConfig>` attached at a broader scope
(`app_data::<web::Data<Self>>()`). -/
structure AppData where
  direct : Option XmlConfig
  shared : Option XmlConfig

/-- Mirrors `XmlConfig::from_req` from src/config.rs: check the exact
type first, then the `Data`-wrapped one, and fall back to the default. -/
def XmlConfig.from_req (req : AppData) : XmlConfig :=
  (req.direct.orElse fun _ => req.shared).getD DEFAULT_CONFIG

/-- Models `http::HeaderValue::to_str`'s byte test: visible ASCII or tab. -/
def visibleAscii (b : Nat) : Bool :=
  (decide (32 ≤ b) && decide (b < 127)) || b == 9

/-- Models `HeaderValue::to_str().ok()`: the header bytes yield a string
only when every byte is visible ASCII (or tab); any other byte — in
particular any byte of an invalid UTF-8 sequence — makes it `none`. -/
def to_str (bytes : List Nat) : Option String :=
  if bytes.all visibleAscii then some (String.mk (bytes.map Char.ofNat))
  else none

/-- Models `str::parse::<usize>().ok()`: an optional leading plus sign,
then at least one ASCII digit, with the value bounded by `usize::MAX`
(64-bit); anything else is `none`. -/
def parse_usize (s : String) : Option Nat :=
  let ds := match s.data with
    | '+' :: rest => rest
    | l => l
  if ds.isEmpty then none
  else if ds.all Char.isDigit then
    let v := ds.foldl (fun a c => a * 10 + (c.toNat - 48)) 0
    if v ≤ 2 ^ 64 - 1 then some v else none
  else none

/-- Mirrors the Content-Length computation in `XmlBody::new`
(src/lib.rs): `get(CONTENT_LENGTH).and_then(to_str.ok).and_then(parse.ok)`. -/
def contentLength (header : Option (List Nat)) : Option Nat :=
  (header.bind to_str).bind parse_usize

/-- The fields of `XmlBody` that drive the size checks. -/
structure XmlBodyState where
  limit : Nat
  length : Option Nat

/-- Mirrors `XmlBody::new` (src/lib.rs): default limit 262144 and the
declared length read from the Content-Length header. -/
def XmlBody.new (header : Option (List Nat)) : XmlBodyState :=
  { limit := 262144, length := contentLength header }

/-- The byte-chunk source: a finite sequence of deliveries, each either a
chunk or a transport error; the end of the list is end-of-stream. -/
abbrev ByteStream := List (Except PayloadError Chunk)

instance {ε α : Type} [DecidableEq ε] [DecidableEq α] : DecidableEq (Except ε α) := fun a b =>
  match a, b with
  | .ok x, .ok y => if h : x = y then .isTrue (by rw [h]) else .isFalse (by simp [h])
  | .error x, .error y => if h : x = y then .isTrue (by rw [h]) else .isFalse (by simp [h])
  | .ok _, .error _ => .isFalse (by simp)
  | .error _, .ok _ => .isFalse (by simp)

/-- Result of the collection loop, together with how many stream items
were pulled before it stopped. -/
structure CollectResult where
  outcome : Except XMLPayloadError Chunk
  pulled : Nat
deriving DecidableEq

/-- Mirrors the `while let Some(item) = stream.next().await` loop in
`XmlBody::poll` (src/lib.rs): a transport error is propagated as
`Payload`; a chunk that would push the buffer past the limit aborts with
`Overflow` (strict `>`); otherwise the chunk is appended and the loop
continues; end-of-stream returns the buffer. -/
def collect (limit : Nat) (body : Chunk) (stream : ByteStream) : CollectResult :=
  match stream with
  | [] => ⟨.ok body, 0⟩
  | item :: rest =>
    match item with
    | .error e => ⟨.error (.Payload e), 1⟩
    | .ok chunk =>
      if body.length + chunk.length > limit then
        ⟨.error .Overflow, 1⟩
      else
        let r := collect limit (body ++ chunk) rest
        ⟨r.outcome, r.pulled + 1⟩

/-- Every buffer state the loop in `XmlBody::poll` passes through (the
observation points): the buffer before the loop and after each append;
on `Overflow` the offending chunk is never appended, so the overflowing
buffer never appears. -/
def bufferTrace (limit : Nat) (body : Chunk) (stream : ByteStream) : List Chunk :=
  body ::
    match stream with
    | [] => []
    | .error _ :: _ => []
    | .ok chunk :: rest =>
      if body.length + chunk.length > limit then []
      else bufferTrace limit (body ++ chunk) rest

/-- Result of one whole `XmlBody` extraction, instrumented with how many
stream items were pulled, how often the decoder ran, and on which buffer. -/
structure PollResult (U : Type) where
  outcome : Except XMLPayloadError U
  pulled : Nat
  decodeCalls : Nat
  decodeInput : Option Chunk
deriving DecidableEq

/-- Models `Ok(quick_xml::de::from_reader(&*body)?)`: a decoder failure
becomes `Deserialize` via the `From` impl in src/error.rs. -/
def runDecode {U : Type} (decode : Chunk → Except DeError U) (body : Chunk) :
    Except XMLPayloadError U :=
  match decode body with
  | .ok v => .ok v
  | .error e => .error (.Deserialize e)

/-- The streaming path of `XmlBody::poll`: collect the full body, then —
only on a completed, size-valid buffer — invoke the decoder exactly once. -/
def pollFut {U : Type} (limit : Nat) (stream : ByteStream)
    (decode : Chunk → Except DeError U) : PollResult U :=
  let c := collect limit [] stream
  match c.outcome with
  | .ok body => ⟨runDecode decode body, c.pulled, 1, some body⟩
  | .error e => ⟨.error e, c.pulled, 0, none⟩

/-- Mirrors `XmlBody::poll` (src/lib.rs): if a declared length is present
and exceeds the limit, fail with `Overflow` before touching the stream;
otherwise run the collection-then-decode future. -/
def XmlBody.poll {U : Type} (limit : Nat) (length : Option Nat)
    (stream : ByteStream) (decode : Chunk → Except DeError U) : PollResult U :=
  match length with
  | some len =>
    if len > limit then ⟨.error .Overflow, 0, 0, none⟩
    else pollFut limit stream decode
  | none => pollFut limit stream decode

/-- The request metadata `Xml::from_request` consumes. -/
structure Request where
  appData : AppData
  mimeType : MimeResult
  contentLengthHeader : Option (List Nat)

/-- Result of the full pipeline, recording whether the payload stream was
taken at all. -/
structure PipelineResult (U : Type) where
  outcome : Except XMLPayloadError U
  payloadTaken : Bool
  pulled : Nat
  decodeCalls : Nat
  decodeInput : Option Chunk
deriving DecidableEq

/-- Mirrors `Xml::from_request` (src/lib.rs): resolve the config, run the
content-type gate and return its error without touching the payload;
otherwise take the payload and run `XmlBody::new(..).limit(config.limit)`. -/
def Xml.from_request {U : Type} (req : Request) (stream : ByteStream)
    (decode : Chunk → Except DeError U) : PipelineResult U :=
  let config := XmlConfig.from_req req.appData
  match config.check_content_type req.mimeType with
  | .error e => ⟨.error e, false, 0, 0, none⟩
  | .ok _ =>
    let st := XmlBody.new req.contentLengthHeader
    let p := XmlBody.poll config.limit st.length stream decode
    ⟨p.outcome, true, p.pulled, p.decodeCalls, p.decodeInput⟩

/-- Total number of bytes across a list of chunks. -/
def sumLen (chunks : List Chunk) : Nat :=
  (chunks.map List.length).sum

/-- ASCII bytes of a string literal, for writing concrete header values. -/
def strBytes (s : String) : List Nat :=
  s.data.map Char.toNat

theorem sumLen_nil : sumLen [] = 0 := rfl

theorem sumLen_cons (c : Chunk) (cs : List Chunk) :
    sumLen (c :: cs) = c.length + sumLen cs := by
  simp [sumLen]

theorem sumLen_append (a b : List Chunk) :
    sumLen (a ++ b) = sumLen a + sumLen b := by
  simp [sumLen]

theorem collect_ok_le (limit : Nat) :
    ∀ (stream : ByteStream) (body : Chunk), body.length ≤ limit →
      ∀ out, (collect limit body stream).outcome = .ok out → out.length ≤ limit := by
  intro stream
  induction stream with
  | nil =>
    intro body hb out hout
    simp [collect] at hout
    exact hout ▸ hb
  | cons item rest ih =>
    intro body hb out hout
    cases item with
    | error e => simp [collect] at hout
    | ok chunk =>
      simp only [collect] at hout
      split at hout
      · simp at hout
      · exact ih (body ++ chunk) (by simp at *; omega) out hout

theorem bufferTrace_le (limit : Nat) :
    ∀ (stream : ByteStream) (body : Chunk), body.length ≤ limit →
      ∀ b ∈ bufferTrace limit body stream, b.length ≤ limit := by
  intro stream
  induction stream with
  | nil =>
    intro body hb b hmem
    simp [bufferTrace] at hmem
    exact hmem ▸ hb
  | cons item rest ih =>
    intro body hb b hmem
    cases item with
    | error e =>
      simp [bufferTrace] at hmem
      exact hmem ▸ hb
    | ok chunk =>
      simp only [bufferTrace] at hmem
      split at hmem
      · simp at hmem
        exact hmem ▸ hb
      · rcases List.mem_cons.mp hmem with h | h
        · exact h ▸ hb
        · exact ih (body ++ chunk) (by simp at *; omega) b h

theorem collect_ok_of_sum (limit : Nat) :
    ∀ (chunks : List Chunk) (body : Chunk),
      body.length + sumLen chunks ≤ limit →
      collect limit body (chunks.map Except.ok) =
        ⟨.ok (body ++ chunks.flatten), chunks.length⟩ := by
  intro chunks
  induction chunks with
  | nil =>
    intro body h
    simp [collect]
  | cons c cs ih =>
    intro body h
    rw [sumLen_cons] at h
    simp only [List.map, collect]
    rw [if_neg (by omega)]
    rw [ih (body ++ c) (by simp; omega)]
    simp

theorem collect_overflow_of_sum (limit : Nat) :
    ∀ (chunks : List Chunk) (body : Chunk),
      body.length ≤ limit → limit < body.length + sumLen chunks →
      (collect limit body (chunks.map Except.ok)).outcome = .error .Overflow := by
  intro chunks
  induction chunks with
  | nil =>
    intro body hb h
    rw [sumLen_nil] at h
    omega
  | cons c cs ih =>
    intro body hb h
    rw [sumLen_cons] at h
    simp only [List.map, collect]
    split
    · rfl
    · exact ih (body ++ c) (by simp at *; omega) (by simp; omega)

theorem collect_payload_err (limit : Nat) :
    ∀ (chunks : List Chunk) (body : Chunk) (e : PayloadError) (rest : ByteStream),
      body.length + sumLen chunks ≤ limit →
      collect limit body (chunks.map Except.ok ++ Except.error e :: rest) =
        ⟨.error (.Payload e), chunks.length + 1⟩ := by
  intro chunks
  induction chunks with
  | nil =>
    intro body e rest _
    simp [collect]
  | cons c cs ih =>
    intro body e rest h
    rw [sumLen_cons] at h
    simp only [List.map, List.cons_append, collect]
    rw [if_neg (by omega)]
    simp only [List.append_eq]
    rw [ih (body ++ c) e rest (by simp; omega)]
    simp

/-- C1: At every observation point of the collection loop the accumulated
buffer's length is at most the limit; a completed collection only ever
returns a buffer of length at most the limit; and whenever a whole
`XmlBody` extraction succeeds, the buffer the decoder consumed was within
the limit — so a caller never observes a successful outcome whose total
body size exceeds the limit.  On the `Overflow` paths the returned value
is the bare `Overflow` error, which carries no buffer, so the oversized
data is discarded and never returned. -/
theorem xmlbody_buffer_within_limit (limit : Nat) (stream : ByteStream) :
    (∀ b ∈ bufferTrace limit [] stream, b.length ≤ limit) ∧
    (∀ out, (collect limit [] stream).outcome = .ok out → out.length ≤ limit) ∧
    (∀ (U : Type) (length : Option Nat) (decode : Chunk → Except DeError U) (v : U),
      (XmlBody.poll limit length stream decode).outcome = .ok v →
      ∃ body, (XmlBody.poll limit length stream decode).decodeInput = some body ∧
        body.length ≤ limit) := by
  refine ⟨bufferTrace_le limit stream [] (by simp),
    collect_ok_le limit stream [] (by simp), ?_⟩
  intro U length decode v hv
  have key : ∀ (r : PollResult U), r = pollFut limit stream decode →
      r.outcome = .ok v →
      ∃ body, r.decodeInput = some body ∧ body.length ≤ limit := by
    intro r hr hro
    rcases hco : (collect limit [] stream).outcome with e | body
    · rw [hr] at hro
      simp [pollFut, hco] at hro
    · rw [hr]
      simp only [pollFut, hco]
      exact ⟨body, rfl, collect_ok_le limit stream [] (by simp) body hco⟩
  cases length with
  | none => exact key _ rfl hv
  | some len =>
    by_cases hl : len > limit
    · simp only [XmlBody.poll] at hv
      rw [if_pos hl] at hv
      exact absurd hv (by simp)
    · simp only [XmlBody.poll] at hv ⊢
      rw [if_neg hl] at hv ⊢
      exact key _ rfl hv

theorem xmlbody_buffer_within_limit_witness : ([1, 2, 3] : Chunk).length ≤ 5 :=
  (xmlbody_buffer_within_limit 5 [.ok [1, 2], .ok [3]]).2.1 [1, 2, 3] rfl

/-- C2: A streamed body whose cumulative size equals the limit exactly is
collected successfully, while the same body with one additional byte (an
extra one-byte chunk) fails with `Overflow`: the size check is strict,
`buffer.length + chunk.length > limit` triggers the failure and equality
does not. -/
theorem collect_boundary (limit : Nat) (chunks : List Chunk) (b : Byte)
    (hexact : sumLen chunks = limit) :
    (collect limit [] (chunks.map Except.ok)).outcome = .ok chunks.flatten ∧
    (collect limit []
      ((chunks ++ [[b]]).map Except.ok)).outcome = .error .Overflow := by
  constructor
  · rw [collect_ok_of_sum limit chunks [] (by simp [hexact])]
    simp
  · refine collect_overflow_of_sum limit (chunks ++ [[b]]) [] (by simp) ?_
    rw [sumLen_append, hexact]
    simp [sumLen]

theorem collect_boundary_witness :
    (collect 3 [] ([[1, 2], [3]].map Except.ok)).outcome = .ok [1, 2, 3] ∧
    (collect 3 []
      (([[1, 2], [3]] ++ [[7]]).map Except.ok)).outcome = .error .Overflow :=
  collect_boundary 3 [[1, 2], [3]] 7 rfl

/-- C3: When the Content-Length header parses to a value larger than the
limit, the extraction fails with `Overflow` and the stream is never read:
not a single item is pulled and the decoder never runs. -/
theorem declared_over_limit_no_read {U : Type} (limit : Nat)
    (header : Option (List Nat)) (len : Nat) (stream : ByteStream)
    (decode : Chunk → Except DeError U)
    (hlen : contentLength header = some len) (hover : len > limit) :
    XmlBody.poll limit (XmlBody.new header).length stream decode =
      ⟨.error .Overflow, 0, 0, none⟩ := by
  simp [XmlBody.new, XmlBody.poll, hlen, hover]

theorem declared_over_limit_no_read_witness :
    XmlBody.poll 10 (XmlBody.new (some (strBytes "11"))).length
      [Except.ok [1]] (fun b => Except.ok b.length) =
      ⟨.error .Overflow, 0, 0, none⟩ :=
  declared_over_limit_no_read 10 (some (strBytes "11")) 11 [Except.ok [1]]
    (fun b => Except.ok b.length) (by decide) (by decide)

/-- C4: The content-type check succeeds exactly when the media type
parsed and either its type and subtype are text/xml or application/xml
(parameters play no role), or the configured predicate accepts it; in
every other case — header absent, unparsable, or rejected by both the
built-in types and the (possibly missing) predicate — it fails with
`ContentType`. -/
theorem check_content_type_iff (config : XmlConfig) (mt : MimeResult) :
    (config.check_content_type mt = .ok () ↔
      ∃ m, mt = .parsed m ∧
        ((m.type_ = "text" ∧ m.subtype = "xml") ∨
         (m.type_ = "application" ∧ m.subtype = "xml") ∨
         config.acceptedByPredicate m = true)) ∧
    (config.check_content_type mt = .ok () ∨
      config.check_content_type mt = .error .ContentType) := by
  cases mt with
  | parsed m =>
    constructor
    · simp only [XmlConfig.check_content_type]
      split
      · rename_i hc
        simp only [Bool.or_eq_true, mimeEq, Bool.and_eq_true, beq_iff_eq] at hc
        exact iff_of_true rfl ⟨m, rfl, by tauto⟩
      · rename_i hc
        simp only [Bool.or_eq_true, mimeEq, Bool.and_eq_true, beq_iff_eq] at hc
        refine iff_of_false (by simp) ?_
        rintro ⟨m', hm, hor⟩
        cases hm
        exact hc (by tauto)
    · simp only [XmlConfig.check_content_type]
      split
      · exact Or.inl rfl
      · exact Or.inr rfl
  | absent =>
    constructor
    · simp [XmlConfig.check_content_type]
    · simp [XmlConfig.check_content_type]
  | malformed =>
    constructor
    · simp [XmlConfig.check_content_type]
    · simp [XmlConfig.check_content_type]

theorem check_content_type_iff_witness :
    XmlConfig.check_content_type ⟨4096, none⟩
      (.parsed ⟨"text", "xml", [("charset", "utf-8")]⟩) = .ok () :=
  (check_content_type_iff ⟨4096, none⟩
    (.parsed ⟨"text", "xml", [("charset", "utf-8")]⟩)).1.mpr
    ⟨⟨"text", "xml", [("charset", "utf-8")]⟩, rfl, Or.inl ⟨rfl, rfl⟩⟩

/-- C5: When the content-type gate rejects the request, the pipeline
returns the `ContentType` error immediately: the payload is never taken,
no stream item is pulled and the decoder never runs. -/
theorem content_type_gate_short_circuits {U : Type} (req : Request)
    (stream : ByteStream) (decode : Chunk → Except DeError U)
    (h : (XmlConfig.from_req req.appData).check_content_type req.mimeType =
      .error .ContentType) :
    Xml.from_request req stream decode =
      ⟨.error .ContentType, false, 0, 0, none⟩ := by
  simp [Xml.from_request, h]

theorem content_type_gate_short_circuits_witness :
    Xml.from_request (U := Nat)
      ⟨⟨none, none⟩, .parsed ⟨"text", "plain", []⟩, none⟩
      [Except.ok [60]] (fun _ => Except.ok 7) =
      ⟨.error .ContentType, false, 0, 0, none⟩ :=
  content_type_gate_short_circuits
    ⟨⟨none, none⟩, .parsed ⟨"text", "plain", []⟩, none⟩
    [Except.ok [60]] (fun _ => Except.ok 7) rfl

/-- C6 counterexample: a request with the accepted media type
`application/xml`, a streamed body of 1 byte (well within the default
limit 262144) on which the decoder succeeds, but whose Content-Length
header declares 262145: the claim says the outcome is the decoded value,
yet the pipeline returns `Overflow` and never invokes the decoder. -/
theorem decode_claim_counterexample :
    (XmlConfig.from_req (AppData.mk none none)).check_content_type
      (.parsed ⟨"application", "xml", []⟩) = .ok () ∧
    sumLen [[60]] ≤ (XmlConfig.from_req (AppData.mk none none)).limit ∧
    (fun _ => (Except.ok 7 : Except DeError Nat)) ([[60]] : List Chunk).flatten =
      .ok 7 ∧
    Xml.from_request (U := Nat)
      ⟨⟨none, none⟩, .parsed ⟨"application", "xml", []⟩, some (strBytes "262145")⟩
      [Except.ok [60]] (fun _ => Except.ok 7) =
      ⟨.error .Overflow, true, 0, 0, none⟩ :=
  ⟨rfl, by decide, rfl, by decide⟩

/-- C6 amended: for a request with an accepted media type, whose declared
Content-Length (if it parses at all) does not exceed the limit, and whose
error-free streamed body has total size at most the limit and decodes
successfully, the pipeline's outcome is the decoded value; the whole
stream is consumed and the decoder is invoked exactly once, on the
complete buffer, i.e. the concatenation of all chunks. -/
theorem accepted_request_decodes_once {U : Type} (req : Request)
    (chunks : List Chunk) (decode : Chunk → Except DeError U) (v : U)
    (hgate : (XmlConfig.from_req req.appData).check_content_type req.mimeType =
      .ok ())
    (hlen : contentLength req.contentLengthHeader = none ∨
      ∃ n, contentLength req.contentLengthHeader = some n ∧
        n ≤ (XmlConfig.from_req req.appData).limit)
    (hsum : sumLen chunks ≤ (XmlConfig.from_req req.appData).limit)
    (hdec : decode chunks.flatten = .ok v) :
    Xml.from_request req (chunks.map Except.ok) decode =
      ⟨.ok v, true, chunks.length, 1, some chunks.flatten⟩ := by
  have hcol := collect_ok_of_sum (XmlConfig.from_req req.appData).limit chunks []
    (by simpa using hsum)
  have hfut : pollFut (XmlConfig.from_req req.appData).limit
      (chunks.map Except.ok) decode =
      ⟨.ok v, chunks.length, 1, some chunks.flatten⟩ := by
    simp [pollFut, hcol, runDecode, hdec]
  simp only [Xml.from_request, hgate, XmlBody.new, XmlBody.poll]
  rcases hlen with hnone | ⟨n, hn, hle⟩
  · rw [hnone]
    simp [hfut]
  · rw [hn]
    simp [hfut, Nat.not_lt.mpr hle]

theorem accepted_request_decodes_once_witness :
    Xml.from_request (U := Nat)
      ⟨⟨none, none⟩, .parsed ⟨"text", "xml", []⟩, some (strBytes "3")⟩
      ([[60], [62, 63]].map Except.ok) (fun b => Except.ok b.length) =
      ⟨.ok 3, true, 2, 1, some [60, 62, 63]⟩ :=
  accepted_request_decodes_once
    ⟨⟨none, none⟩, .parsed ⟨"text", "xml", []⟩, some (strBytes "3")⟩
    [[60], [62, 63]] (fun b => Except.ok b.length) 3
    rfl (Or.inr ⟨3, by decide, by decide⟩) (by decide) rfl

/-- C7: Configuration resolution is total (it always yields a config) and
follows a fixed first-match-wins order: the directly attached config, then
the `Data`-wrapped one, then the process-wide default.  Determinism is
immediate: `XmlConfig.from_req` is a pure function of the request's app
data, so resolving twice yields the identical configuration. -/
theorem from_req_resolution_order (req : AppData) :
    (∀ c, req.direct = some c → XmlConfig.from_req req = c) ∧
    (req.direct = none → ∀ c, req.shared = some c → XmlConfig.from_req req = c) ∧
    (req.direct = none → req.shared = none →
      XmlConfig.from_req req = DEFAULT_CONFIG) := by
  refine ⟨?_, ?_, ?_⟩
  · intro c h
    rw [XmlConfig.from_req, h]
    rfl
  · intro h1 c h2
    rw [XmlConfig.from_req, h1, h2]
    rfl
  · intro h1 h2
    rw [XmlConfig.from_req, h1, h2]
    rfl

theorem from_req_resolution_order_witness :
    XmlConfig.from_req ⟨some ⟨5, none⟩, some ⟨9, none⟩⟩ = ⟨5, none⟩ :=
  (from_req_resolution_order ⟨some ⟨5, none⟩, some ⟨9, none⟩⟩).1 ⟨5, none⟩ rfl

/-- C8: A transport error surfaced by the source after some error-free
chunks stops the collection at that very item: exactly the preceding
chunks and the erroring item are pulled, nothing after it is read (the
count does not depend on `rest`), no retry happens, and the source's error
is propagated unchanged (wrapped as `Payload e`) as the extraction's
outcome, without invoking the decoder. -/
theorem transport_error_propagates {U : Type} (limit : Nat)
    (pfx : List Chunk) (e : PayloadError) (rest : ByteStream)
    (decode : Chunk → Except DeError U)
    (hsum : sumLen pfx ≤ limit) :
    collect limit [] (pfx.map Except.ok ++ Except.error e :: rest) =
      ⟨.error (.Payload e), pfx.length + 1⟩ ∧
    pollFut limit (pfx.map Except.ok ++ Except.error e :: rest) decode =
      ⟨.error (.Payload e), pfx.length + 1, 0, none⟩ := by
  have hc := collect_payload_err limit pfx [] e rest (by simpa using hsum)
  exact ⟨hc, by simp [pollFut, hc]⟩

theorem transport_error_propagates_witness :
    collect 10 [] ([[1, 2]].map Except.ok ++ Except.error ⟨42⟩ :: [Except.ok [3]]) =
      ⟨.error (.Payload ⟨42⟩), 2⟩ ∧
    pollFut 10 ([[1, 2]].map Except.ok ++ Except.error ⟨42⟩ :: [Except.ok [3]])
        (fun b => (Except.ok b.length : Except DeError Nat)) =
      ⟨.error (.Payload ⟨42⟩), 2, 0, none⟩ :=
  transport_error_propagates 10 [[1, 2]] ⟨42⟩ [Except.ok [3]]
    (fun b => Except.ok b.length) (by decide)

/-- C9: The process-wide default configuration has limit 262144 bytes and
no content-type predicate; it is the configuration resolved whenever no
per-route config is attached; and `XmlBody::new` starts from the same
262144 default limit. -/
theorem default_config_spec :
    DEFAULT_CONFIG.limit = 262144 ∧
    DEFAULT_CONFIG.content_type = none ∧
    (∀ req : AppData, req.direct = none → req.shared = none →
      XmlConfig.from_req req = DEFAULT_CONFIG) ∧
    ∀ header, (XmlBody.new header).limit = 262144 := by
  refine ⟨rfl, rfl, ?_, fun _ => rfl⟩
  intro req h1 h2
  rw [XmlConfig.from_req, h1, h2]
  rfl

theorem default_config_spec_witness :
    XmlConfig.from_req ⟨none, none⟩ = DEFAULT_CONFIG :=
  default_config_spec.2.2.1 ⟨none, none⟩ rfl rfl

/-- C10: A Content-Length header whose bytes do not form a readable
string, or whose string does not parse as a nonnegative integer, leaves
the declared length empty, exactly as if the header were absent: the
fast-path rejection is skipped and the extraction runs the streaming path,
where the limit is enforced incrementally against the accumulated size. -/
theorem invalid_content_length_like_absent {U : Type}
    (header : Option (List Nat)) (limit : Nat) (stream : ByteStream)
    (decode : Chunk → Except DeError U)
    (h : contentLength header = none) :
    (XmlBody.new header).length = none ∧
    XmlBody.poll limit (XmlBody.new header).length stream decode =
      pollFut limit stream decode := by
  constructor
  · simp [XmlBody.new, h]
  · simp [XmlBody.new, XmlBody.poll, h]

theorem invalid_content_length_like_absent_witness :
    (XmlBody.new (some [255, 50])).length = none ∧
    XmlBody.poll 10 (XmlBody.new (some [255, 50])).length [Except.ok [1]]
        (fun b => Except.ok b.length) =
      pollFut 10 [Except.ok [1]] (fun b => Except.ok b.length) :=
  invalid_content_length_like_absent (some [255, 50]) 10 [Except.ok [1]]
    (fun b => Except.ok b.length) (by decide)

end ActixXml
